import Mathlib

/-!
Verification development for the XML serializer and lexer core of the
jdmiranda/dom repository.  The serializer definitions below are a shallow
embedding of the class XMLSerializerNoNSImpl; strings are Lean strings,
JavaScript exceptions become an explicit Except result, and the node tree
becomes an inductive type exposing exactly the fields the algorithm reads.
-/

/-! ## Character-class predicates (from ../algorithm, outside the core sources) -/

/-- Modelled from the spec: the XML Char production used by the legal-character
test (the function xml_isLegalChar lives in ../algorithm which is not part of
the core sources).  A code point is legal when it is TAB, LF, CR, or lies in
the ranges 0x20-0xD7FF, 0xE000-0xFFFD, 0x10000-0x10FFFF. -/
def xml_isLegalCharCode (n : Nat) : Bool :=
  n = 0x9 || n = 0xA || n = 0xD ||
  (0x20 ≤ n && n ≤ 0xD7FF) ||
  (0xE000 ≤ n && n ≤ 0xFFFD) ||
  (0x10000 ≤ n && n ≤ 0x10FFFF)

/-- Modelled from the spec: the string-level legal-character test; true when
every character of the string matches the XML Char production. -/
def xml_isLegalChar (s : String) : Bool :=
  s.data.all (fun c => xml_isLegalCharCode c.toNat)

/-- Modelled from the spec: the XML NameStartChar production. -/
def xml_isNameStartCharCode (n : Nat) : Bool :=
  n = 0x3A ||
  (0x41 ≤ n && n ≤ 0x5A) || n = 0x5F || (0x61 ≤ n && n ≤ 0x7A) ||
  (0xC0 ≤ n && n ≤ 0xD6) || (0xD8 ≤ n && n ≤ 0xF6) ||
  (0xF8 ≤ n && n ≤ 0x2FF) || (0x370 ≤ n && n ≤ 0x37D) ||
  (0x37F ≤ n && n ≤ 0x1FFF) || (0x200C ≤ n && n ≤ 0x200D) ||
  (0x2070 ≤ n && n ≤ 0x218F) || (0x2C00 ≤ n && n ≤ 0x2FEF) ||
  (0x3001 ≤ n && n ≤ 0xD7FF) || (0xF900 ≤ n && n ≤ 0xFDCF) ||
  (0xFDF0 ≤ n && n ≤ 0xFFFD) || (0x10000 ≤ n && n ≤ 0xEFFFF)

/-- Modelled from the spec: the XML NameChar production. -/
def xml_isNameCharCode (n : Nat) : Bool :=
  xml_isNameStartCharCode n ||
  n = 0x2D || n = 0x2E || (0x30 ≤ n && n ≤ 0x39) || n = 0xB7 ||
  (0x300 ≤ n && n ≤ 0x36F) || (0x203F ≤ n && n ≤ 0x2040)

/-- Modelled from the spec: the XML Name production, as tested by the
function xml_isName of ../algorithm: a NameStartChar followed by NameChars. -/
def xml_isName (s : String) : Bool :=
  match s.data with
  | [] => false
  | c :: rest =>
    xml_isNameStartCharCode c.toNat && rest.all (fun d => xml_isNameCharCode d.toNat)

/-- Modelled from the spec: the XML PubidChar production. -/
def xml_isPubidCharCode (n : Nat) : Bool :=
  n = 0x20 || n = 0xD || n = 0xA ||
  (0x41 ≤ n && n ≤ 0x5A) || (0x61 ≤ n && n ≤ 0x7A) || (0x30 ≤ n && n ≤ 0x39) ||
  n = 0x2D || n = 0x27 || n = 0x28 || n = 0x29 || n = 0x2B || n = 0x2C ||
  n = 0x2E || n = 0x2F || n = 0x3A || n = 0x3D || n = 0x3F || n = 0x3B ||
  n = 0x21 || n = 0x2A || n = 0x23 || n = 0x40 || n = 0x24 || n = 0x5F ||
  n = 0x25

/-- Modelled from the spec: the string-level PubidChar test used by
xml_isPubidChar of ../algorithm. -/
def xml_isPubidChar (s : String) : Bool :=
  s.data.all (fun c => xml_isPubidCharCode c.toNat)

/-! ## String search helpers (mirroring JavaScript indexOf and endsWith) -/

/-- Auxiliary substring search on character lists. -/
def hasSubAux (s pat : List Char) : Bool :=
  match s with
  | [] => pat.isEmpty
  | _ :: rest => pat.isPrefixOf s || hasSubAux rest pat

/-- Mirrors JavaScript s.indexOf(pat) converted to a containment test. -/
def strIncludes (s pat : String) : Bool :=
  hasSubAux s.data pat.data

/-- Mirrors JavaScript s.endsWith(pat). -/
def strEndsWith (s pat : String) : Bool :=
  pat.data.isSuffixOf s.data

/-! ## The node data model (read-only view consumed by the serializer) -/

/-- An attribute as the serializer reads it: a local name and a value that
the value-serialization step treats as nullable. -/
structure Attr where
  localName : String
  value : Option String
deriving DecidableEq

/-- The node categories dispatched on by _serializeNode; the constructor
other stands for any node whose nodeType is none of the eight handled
categories (the default branch of the switch). -/
inductive Node where
  | element (localName : String) (attributes : List Attr) (children : List Node)
  | document (children : List Node)
  | comment (data : String)
  | text (data : String)
  | documentFragment (children : List Node)
  | documentType (name publicId systemId : String)
  | processingInstruction (target data : String)
  | cdataSection (data : String)
  | other

/-- The distinct throw sites of the serializer, kept apart internally. -/
inductive SerializeError where
  | invalidElementName
  | duplicateAttribute
  | invalidAttributeName
  | invalidAttributeValue
  | missingDocumentElement
  | invalidCommentData
  | invalidTextData
  | invalidPubId
  | invalidSysId
  | invalidPITarget
  | invalidPIData
  | invalidCDataData
  | unknownNodeType
deriving DecidableEq

/-- The single public error kind of serializeToString. -/
inductive DOMException where
  | invalidStateError
deriving DecidableEq

/-! ## Escaping (the per-character loops of _serializeText and
_serializeAttributeValue) -/

/-- The character loop of _serializeText: checks the character against
the ampersand, then the angle brackets, appending the replacement. -/
def escapeTextData (data : String) : String :=
  data.data.foldl
    (fun acc c =>
      if c = '&' then acc ++ "&amp;"
      else if c = '<' then acc ++ "&lt;"
      else if c = '>' then acc ++ "&gt;"
      else acc ++ c.toString) ""

/-- The character loop of _serializeAttributeValue: quotation mark first,
then ampersand, then the angle brackets. -/
def escapeAttributeValueData (value : String) : String :=
  value.data.foldl
    (fun acc c =>
      if c = '"' then acc ++ "&quot;"
      else if c = '&' then acc ++ "&amp;"
      else if c = '<' then acc ++ "&lt;"
      else if c = '>' then acc ++ "&gt;"
      else acc ++ c.toString) ""

/-! ## The serializer -/

/-- _serializeAttributeValue: a well-formedness check on non-null values,
then null becomes the empty string and a string value is escaped. -/
def serializeAttributeValue (value : Option String) (requireWellFormed : Bool) :
    Except SerializeError String :=
  match value with
  | none => .ok ""
  | some v =>
    if requireWellFormed && !xml_isLegalChar v then
      .error .invalidAttributeValue
    else
      .ok (escapeAttributeValueData v)

/-- The attribute loop of _serializeAttributes: seen is the localname set
(consulted and extended only when requireWellFormed holds), result the
accumulated output. -/
def serializeAttributesAux (requireWellFormed : Bool) :
    List Attr → List String → String → Except SerializeError String
  | [], _, result => .ok result
  | attr :: rest, seen, result =>
    if requireWellFormed && seen.contains attr.localName then
      .error .duplicateAttribute
    else
      let seen1 := if requireWellFormed then attr.localName :: seen else seen
      if requireWellFormed &&
          (strIncludes attr.localName ":" || !xml_isName attr.localName) then
        .error .invalidAttributeName
      else
        match serializeAttributeValue attr.value requireWellFormed with
        | .error e => .error e
        | .ok v =>
          serializeAttributesAux requireWellFormed rest seen1
            (result ++ " " ++ attr.localName ++ "=\"" ++ v ++ "\"")

/-- _serializeAttributes over an element's attribute list. -/
def serializeAttributes (attrs : List Attr) (requireWellFormed : Bool) :
    Except SerializeError String :=
  serializeAttributesAux requireWellFormed attrs [] ""

/-- _serializeComment. -/
def serializeComment (data : String) (requireWellFormed : Bool) :
    Except SerializeError String :=
  if requireWellFormed && (!xml_isLegalChar data ||
      strIncludes data "--" || strEndsWith data "-") then
    .error .invalidCommentData
  else
    .ok ("<!--" ++ data ++ "-->")

/-- _serializeText. -/
def serializeText (data : String) (requireWellFormed : Bool) :
    Except SerializeError String :=
  if requireWellFormed && !xml_isLegalChar data then
    .error .invalidTextData
  else
    .ok (escapeTextData data)

/-- _serializeDocumentType; the conditional chain mirrors the JavaScript
truthiness tests on publicId and systemId (empty string is falsy). -/
def serializeDocumentType (name publicId systemId : String)
    (requireWellFormed : Bool) : Except SerializeError String :=
  if requireWellFormed && !xml_isPubidChar publicId then
    .error .invalidPubId
  else if requireWellFormed && (!xml_isLegalChar systemId ||
      (strIncludes systemId "\"" && strIncludes systemId "\x27")) then
    .error .invalidSysId
  else if !publicId.isEmpty && !systemId.isEmpty then
    .ok ("<!DOCTYPE " ++ name ++ " PUBLIC \"" ++ publicId ++ "\" \"" ++ systemId ++ "\">")
  else if !publicId.isEmpty then
    .ok ("<!DOCTYPE " ++ name ++ " PUBLIC \"" ++ publicId ++ "\">")
  else if !systemId.isEmpty then
    .ok ("<!DOCTYPE " ++ name ++ " SYSTEM \"" ++ systemId ++ "\">")
  else
    .ok ("<!DOCTYPE " ++ name ++ ">")

/-- ASCII lowering of one character, for the case-insensitive target test. -/
def asciiLowerChar (c : Char) : Char :=
  if 'A' ≤ c && c ≤ 'Z' then Char.ofNat (c.toNat + 32) else c

/-- The regular-expression test of _serializeProcessingInstruction: an
ASCII case-insensitive match of the whole target against "xml". -/
def isXmlTarget (target : String) : Bool :=
  target.data.map asciiLowerChar = "xml".data

/-- _serializeProcessingInstruction. -/
def serializeProcessingInstruction (target data : String)
    (requireWellFormed : Bool) : Except SerializeError String :=
  if requireWellFormed &&
      (strIncludes target ":" || isXmlTarget target) then
    .error .invalidPITarget
  else if requireWellFormed && (!xml_isLegalChar data ||
      strIncludes data "?>") then
    .error .invalidPIData
  else
    .ok ("<?" ++ target ++ " " ++ data ++ "?>")

/-- _serializeCData. -/
def serializeCData (data : String) (requireWellFormed : Bool) :
    Except SerializeError String :=
  if requireWellFormed && strIncludes data "]]>" then
    .error .invalidCDataData
  else
    .ok ("<![CDATA[" ++ data ++ "]]>")

/-- Whether a node is an element, used to compute documentElement. -/
def isElementNode : Node → Bool
  | .element _ _ _ => true
  | _ => false

/-- Modelled from the spec: the documentElement accessor of the tree
subsystem (outside the core sources) is the document's single element
child, or null when absent; here the first element child of the list. -/
def documentElementOf (children : List Node) : Option Node :=
  children.find? isElementNode

mutual

/-- _serializeNode: dispatch on the node category; the default branch of
the switch throws on an unknown category. -/
def serializeNode : Node → Bool → Except SerializeError String
  | .element localName attrs children, requireWellFormed =>
    if requireWellFormed &&
        (strIncludes localName ":" || !xml_isName localName) then
      .error .invalidElementName
    else
      match serializeAttributes attrs requireWellFormed with
      | .error e => .error e
      | .ok attrStr =>
        if children.isEmpty then
          .ok ("<" ++ localName ++ attrStr ++ "/>")
        else
          match serializeChildren children requireWellFormed with
          | .error e => .error e
          | .ok childrenStr =>
            .ok ("<" ++ localName ++ attrStr ++ ">" ++ childrenStr ++
                 "</" ++ localName ++ ">")
  | .document children, requireWellFormed =>
    if requireWellFormed && (documentElementOf children).isNone then
      .error .missingDocumentElement
    else
      serializeChildren children requireWellFormed
  | .comment data, requireWellFormed => serializeComment data requireWellFormed
  | .text data, requireWellFormed => serializeText data requireWellFormed
  | .documentFragment children, requireWellFormed =>
    serializeChildren children requireWellFormed
  | .documentType name publicId systemId, requireWellFormed =>
    serializeDocumentType name publicId systemId requireWellFormed
  | .processingInstruction target data, requireWellFormed =>
    serializeProcessingInstruction target data requireWellFormed
  | .cdataSection data, requireWellFormed => serializeCData data requireWellFormed
  | .other, _ => .error .unknownNodeType

/-- The child loops of _serializeElement, _serializeDocument and
_serializeDocumentFragment: serialize each child in tree order and
concatenate, aborting at the first failure. -/
def serializeChildren : List Node → Bool → Except SerializeError String
  | [], _ => .ok ""
  | c :: rest, requireWellFormed =>
    match serializeNode c requireWellFormed with
    | .error e => .error e
    | .ok s =>
      match serializeChildren rest requireWellFormed with
      | .error e => .error e
      | .ok r => .ok (s ++ r)

end

/-- _xmlSerialization: run the internal algorithm and collapse any failure
to the single InvalidStateError. -/
def xmlSerialization (node : Node) (requireWellFormed : Bool) :
    Except DOMException String :=
  match serializeNode node requireWellFormed with
  | .ok s => .ok s
  | .error _ => .error .invalidStateError

/-- serializeToString: the public entry point, well-formedness disabled. -/
def serializeToString (root : Node) : Except DOMException String :=
  xmlSerialization root false

/-! ## The lexer

Modelled from the spec: the XMLStringLexer source is not part of the core
source set (only its test suite is), so the pull-based tokenizer is modelled
from the specification prose.  The lexer state is the remaining input, a
character list; nextToken returns the next token together with the remaining
input, Token.eof at end of input, or a LexError on a malformed construct. -/

/-- Modelled from the spec: the token variants produced by the lexer. -/
inductive Token where
  | declaration (version encoding standalone : String)
  | doctype (name publicId systemId : String)
  | element (name : String) (attributes : List (String × String)) (selfClosing : Bool)
  | closingTag (name : String)
  | comment (data : String)
  | pi (target data : String)
  | cdata (data : String)
  | text (data : String)
  | eof
deriving DecidableEq

/-- Modelled from the spec: the single lexing error kind, carrying a
human-readable reason. -/
inductive LexError where
  | lexError (reason : String)
deriving DecidableEq

/-- XML whitespace characters. -/
def isWsChar (c : Char) : Bool :=
  c = ' ' || c = '\t' || c = '\n' || c = '\r'

/-- Skip insignificant whitespace. -/
def skipWs : List Char → List Char
  | [] => []
  | c :: rest => if isWsChar c then skipWs rest else c :: rest

/-- Take characters until the predicate holds, returning the taken run and
the remaining input (the delimiter is not consumed). -/
def takeUntil (p : Char → Bool) : List Char → (List Char × List Char)
  | [] => ([], [])
  | c :: rest =>
    if p c then ([], c :: rest)
    else
      let r := takeUntil p rest
      (c :: r.1, r.2)

/-- Find the first occurrence of pat, returning the characters before it
and the characters after it, or none when pat does not occur. -/
def findSub (s pat : List Char) : Option (List Char × List Char) :=
  match s with
  | [] => if pat.isEmpty then some ([], []) else none
  | c :: rest =>
    if pat.isPrefixOf s then some ([], s.drop pat.length)
    else
      match findSub rest pat with
      | some (a, b) => some (c :: a, b)
      | none => none

/-- Modelled from the spec: a duplicate attribute name overwrites the
earlier value while keeping insertion order of first appearance. -/
def insertAttr (acc : List (String × String)) (k v : String) :
    List (String × String) :=
  if acc.any (fun p => p.1 = k) then
    acc.map (fun p => if p.1 = k then (k, v) else p)
  else acc ++ [(k, v)]

/-- Modelled from the spec: read one quoted attribute value; the quote must
be a double or single quote and must be terminated. -/
def lexQuotedValue (input : List Char) :
    Except LexError (String × List Char) :=
  match input with
  | [] => .error (.lexError "unterminated input")
  | q :: rest =>
    if q = '"' || q = Char.ofNat 39 then
      let r := takeUntil (fun c => c = q) rest
      match r.2 with
      | _ :: after => .ok (String.mk r.1, after)
      | [] => .error (.lexError "unterminated quoted value")
    else .error (.lexError "attribute value not quoted")

/-- Modelled from the spec: the attribute loop of an open tag (and of the
declaration, with a different terminator handled by the caller).  Each
iteration skips whitespace, then either ends the tag at a greater-than sign
or a solidus and greater-than sign pair, or reads one name=value pair with
optional whitespace around the equals sign; a missing equals sign or an
unquoted value is an error.  Fuel bounds the loop. -/
def lexAttributes (fuel : Nat) (input : List Char)
    (acc : List (String × String)) :
    Except LexError (List (String × String) × Bool × List Char) :=
  match fuel with
  | 0 => .error (.lexError "unterminated element tag")
  | fuel + 1 =>
    match skipWs input with
    | [] => .error (.lexError "unterminated element tag")
    | '>' :: rest => .ok (acc, false, rest)
    | '/' :: rest =>
      match rest with
      | '>' :: rest2 => .ok (acc, true, rest2)
      | _ => .error (.lexError "expected tag end after solidus")
    | r =>
      let nm := takeUntil (fun c => isWsChar c || c = '=' || c = '>' || c = '/') r
      match skipWs nm.2 with
      | '=' :: r3 =>
        match lexQuotedValue (skipWs r3) with
        | .error e => .error e
        | .ok (v, r4) => lexAttributes fuel r4 (insertAttr acc (String.mk nm.1) v)
      | _ => .error (.lexError "expected equals sign after attribute name")

/-- Modelled from the spec: an opening or self-closing element tag, entered
after the initial less-than sign has been consumed: the name runs until
whitespace, a solidus or a greater-than sign, then the attribute loop. -/
def lexOpenTag (input : List Char) : Except LexError (Token × List Char) :=
  let nm := takeUntil (fun c => isWsChar c || c = '>' || c = '/') input
  match lexAttributes (nm.2.length + 1) nm.2 [] with
  | .error e => .error e
  | .ok (attrs, selfClosing, rest) =>
    .ok (.element (String.mk nm.1) attrs selfClosing, rest)

/-- Modelled from the spec: a closing tag, entered after the less-than sign
and solidus: name, optional whitespace, then a mandatory greater-than sign;
unterminated input is an error. -/
def lexClosingTag (input : List Char) : Except LexError (Token × List Char) :=
  let nm := takeUntil (fun c => isWsChar c || c = '>') input
  match skipWs nm.2 with
  | '>' :: rest => .ok (.closingTag (String.mk nm.1), rest)
  | _ => .error (.lexError "unterminated closing tag")

/-- Modelled from the spec: a comment runs to the first occurrence of the
closing delimiter; unterminated input is an error. -/
def lexComment (input : List Char) : Except LexError (Token × List Char) :=
  match findSub input ("-->".data) with
  | some (data, rest) => .ok (.comment (String.mk data), rest)
  | none => .error (.lexError "unterminated comment")

/-- Modelled from the spec: a CDATA section runs to the first occurrence of
the closing delimiter; unterminated input is an error. -/
def lexCData (input : List Char) : Except LexError (Token × List Char) :=
  match findSub input ("]]>".data) with
  | some (data, rest) => .ok (.cdata (String.mk data), rest)
  | none => .error (.lexError "unterminated CDATA section")

/-- Modelled from the spec: a processing instruction: target up to
whitespace or the closing delimiter; data is everything up to the first
closing delimiter, with a bare target yielding empty data. -/
def lexPI (input : List Char) : Except LexError (Token × List Char) :=
  let tg := takeUntil (fun c => isWsChar c || c = '?') input
  if "?>".data.isPrefixOf tg.2 then
    .ok (.pi (String.mk tg.1) "", tg.2.drop 2)
  else
    match findSub (skipWs tg.2) ("?>".data) with
    | some (data, rest) => .ok (.pi (String.mk tg.1) (String.mk data), rest)
    | none => .error (.lexError "unterminated processing instruction")

/-- Modelled from the spec: the declaration parameter loop: version first,
then optional encoding, then optional standalone, in that order and with
quoted values; any other name sequence is an error. -/
def declNamesOk (names : List String) : Bool :=
  names = ["version"] || names = ["version", "encoding"] ||
  names = ["version", "standalone"] ||
  names = ["version", "encoding", "standalone"]

/-- Look up a declaration parameter by name, empty when absent. -/
def declLookup (attrs : List (String × String)) (k : String) : String :=
  match attrs.find? (fun p => p.1 = k) with
  | some p => p.2
  | none => ""

/-- Modelled from the spec: the parameter loop of the XML declaration,
reading name=value pairs until the closing delimiter; unquoted values,
missing equals signs and unterminated input are errors. -/
def lexDeclParams (fuel : Nat) (input : List Char)
    (acc : List (String × String)) :
    Except LexError (List (String × String) × List Char) :=
  match fuel with
  | 0 => .error (.lexError "unterminated declaration")
  | fuel + 1 =>
    match skipWs input with
    | [] => .error (.lexError "unterminated declaration")
    | r =>
      if "?>".data.isPrefixOf r then .ok (acc, r.drop 2)
      else
        let nm := takeUntil (fun c => isWsChar c || c = '=' || c = '?') r
        match skipWs nm.2 with
        | '=' :: r3 =>
          match lexQuotedValue (skipWs r3) with
          | .error e => .error e
          | .ok (v, r4) => lexDeclParams fuel r4 (insertAttr acc (String.mk nm.1) v)
        | _ => .error (.lexError "expected equals sign in declaration")

/-- Modelled from the spec: the XML declaration, entered after its literal
prefix: parameters version, optional encoding, optional standalone, in
order, any other name an error. -/
def lexDeclaration (input : List Char) : Except LexError (Token × List Char) :=
  match lexDeclParams (input.length + 1) input [] with
  | .error e => .error e
  | .ok (attrs, rest) =>
    if declNamesOk (attrs.map (fun p => p.1)) then
      .ok (.declaration (declLookup attrs "version")
        (declLookup attrs "encoding") (declLookup attrs "standalone"), rest)
    else .error (.lexError "unknown declaration attribute")

/-- Modelled from the spec: the doctype, entered after its literal prefix:
name, optional PUBLIC "pubid" "sysid" or SYSTEM "sysid" with mandatory
quotes, optional internal subset skipped, terminated by a greater-than
sign. -/
def lexDocType (input : List Char) : Except LexError (Token × List Char) :=
  let nm := takeUntil (fun c => isWsChar c || c = '>' || c = '[') (skipWs input)
  let name := String.mk nm.1
  let afterName := skipWs nm.2
  let idsRes : Except LexError (String × String × List Char) :=
    if "PUBLIC".data.isPrefixOf afterName then
      match lexQuotedValue (skipWs (afterName.drop 6)) with
      | .error e => .error e
      | .ok (pubId, r1) =>
        match lexQuotedValue (skipWs r1) with
        | .error e => .error e
        | .ok (sysId, r2) => .ok (pubId, sysId, r2)
    else if "SYSTEM".data.isPrefixOf afterName then
      match lexQuotedValue (skipWs (afterName.drop 6)) with
      | .error e => .error e
      | .ok (sysId, r1) => .ok ("", sysId, r1)
    else .ok ("", "", afterName)
  match idsRes with
  | .error e => .error e
  | .ok (pubId, sysId, r) =>
    let afterSubset : Except LexError (List Char) :=
      match skipWs r with
      | '[' :: r1 =>
        match findSub r1 ("]".data) with
        | some (_, r2) => .ok r2
        | none => .error (.lexError "unterminated internal subset")
      | r1 => .ok r1
    match afterSubset with
    | .error e => .error e
    | .ok r3 =>
      match skipWs r3 with
      | '>' :: rest => .ok (.doctype name pubId sysId, rest)
      | _ => .error (.lexError "unterminated doctype")

/-- Modelled from the spec: a text run up to (not including) the next
less-than sign; the lexer never errors on text content. -/
def lexText (input : List Char) : Except LexError (Token × List Char) :=
  let r := takeUntil (fun c => c = '<') input
  .ok (.text (String.mk r.1), r.2)

/-- Modelled from the spec: the dispatch of nextToken, branching on the
literal prefix at the cursor; end of input yields the end-of-input token. -/
def nextToken (input : List Char) : Except LexError (Token × List Char) :=
  match input with
  | [] => .ok (.eof, [])
  | _ =>
    if "<?xml".data.isPrefixOf input then lexDeclaration (input.drop 5)
    else if "<!DOCTYPE".data.isPrefixOf input then lexDocType (input.drop 9)
    else if "<!--".data.isPrefixOf input then lexComment (input.drop 4)
    else if "<![CDATA[".data.isPrefixOf input then lexCData (input.drop 9)
    else if "</".data.isPrefixOf input then lexClosingTag (input.drop 2)
    else if "<?".data.isPrefixOf input then lexPI (input.drop 2)
    else if "<".data.isPrefixOf input then lexOpenTag (input.drop 1)
    else lexText input

/-! ## Specification-side escaping (for refinement comparison)

These definitions follow the wording of the specification: each character is
replaced by its entity independently and exactly once, and the images are
concatenated; they are compared against the accumulator loops translated
from the source. -/

/-- The specification's per-character replacement table for text content:
an ampersand, less-than or greater-than sign becomes its entity, every
other character is unchanged. -/
def escTextChar (c : Char) : String :=
  if c = '&' then "&amp;"
  else if c = '<' then "&lt;"
  else if c = '>' then "&gt;"
  else c.toString

/-- Concatenation of the per-character images of a text run. -/
def escapeTextSpecList : List Char → String
  | [] => ""
  | c :: rest => escTextChar c ++ escapeTextSpecList rest

/-- The specification's text escaping: a single pass replacing each
character independently. -/
def escapeTextSpec (data : String) : String :=
  escapeTextSpecList data.data

/-- The specification's per-character replacement table for attribute
values: ampersand, quotation mark, less-than and greater-than signs become
entities, every other character (including the apostrophe) is unchanged. -/
def escAttrChar (c : Char) : String :=
  if c = '&' then "&amp;"
  else if c = '"' then "&quot;"
  else if c = '<' then "&lt;"
  else if c = '>' then "&gt;"
  else c.toString

/-- Concatenation of the per-character images of an attribute value. -/
def escapeAttrSpecList : List Char → String
  | [] => ""
  | c :: rest => escAttrChar c ++ escapeAttrSpecList rest

/-- The specification's attribute-value escaping. -/
def escapeAttributeValueSpec (value : String) : String :=
  escapeAttrSpecList value.data

/-! ## Helper lemmas -/

theorem escapeTextData_foldl (l : List Char) (acc : String) :
    List.foldl
      (fun acc c =>
        if c = '&' then acc ++ "&amp;"
        else if c = '<' then acc ++ "&lt;"
        else if c = '>' then acc ++ "&gt;"
        else acc ++ c.toString) acc l = acc ++ escapeTextSpecList l := by
  induction l generalizing acc with
  | nil => simp [escapeTextSpecList]
  | cons c rest ih =>
    simp only [List.foldl_cons, ih, escapeTextSpecList, escTextChar]
    by_cases hAmp : c = '&'
    · simp [hAmp, String.append_assoc]
    · by_cases hLt : c = '<'
      · simp [hAmp, hLt, String.append_assoc]
      · by_cases hGt : c = '>'
        · simp [hAmp, hLt, hGt, String.append_assoc]
        · simp [hAmp, hLt, hGt, String.append_assoc]

/-- The source's text-escaping loop computes the specification's
single-pass per-character replacement. -/
theorem escapeTextData_eq_spec (data : String) :
    escapeTextData data = escapeTextSpec data := by
  unfold escapeTextData escapeTextSpec
  rw [escapeTextData_foldl]
  exact String.empty_append _

theorem escapeAttributeValueData_foldl (l : List Char) (acc : String) :
    List.foldl
      (fun acc c =>
        if c = '"' then acc ++ "&quot;"
        else if c = '&' then acc ++ "&amp;"
        else if c = '<' then acc ++ "&lt;"
        else if c = '>' then acc ++ "&gt;"
        else acc ++ c.toString) acc l = acc ++ escapeAttrSpecList l := by
  induction l generalizing acc with
  | nil => simp [escapeAttrSpecList]
  | cons c rest ih =>
    simp only [List.foldl_cons, ih, escapeAttrSpecList, escAttrChar]
    by_cases hQ : c = '"'
    · simp [hQ, String.append_assoc]
    · by_cases hAmp : c = '&'
      · simp [hQ, hAmp, String.append_assoc]
      · by_cases hLt : c = '<'
        · simp [hQ, hAmp, hLt, String.append_assoc]
        · by_cases hGt : c = '>'
          · simp [hQ, hAmp, hLt, hGt, String.append_assoc]
          · simp [hQ, hAmp, hLt, hGt, String.append_assoc]

/-- The source's attribute-value escaping loop computes the specification's
single-pass per-character replacement. -/
theorem escapeAttributeValueData_eq_spec (value : String) :
    escapeAttributeValueData value = escapeAttributeValueSpec value := by
  unfold escapeAttributeValueData escapeAttributeValueSpec
  rw [escapeAttributeValueData_foldl]
  exact String.empty_append _

/-! ## Claim theorems -/

/-- C1: serializing a Text node returns the node's data with each
ampersand, less-than and greater-than sign replaced by its entity, each
exactly once in a single pass, all other characters (quotes included)
unchanged; escaping is not idempotent ("a&b" gives "a&amp;b" while
"a&amp;b" gives "a&amp;amp;b"); and with requireWellFormed set, data
failing the XML legal-character test makes serialization fail. -/
theorem text_escaping_single_pass (data : String) :
    (∀ requireWellFormed : Bool,
      (requireWellFormed = true → xml_isLegalChar data = true) →
      serializeNode (Node.text data) requireWellFormed =
        .ok (escapeTextSpec data)) ∧
    (xml_isLegalChar data = false →
      serializeNode (Node.text data) true = .error .invalidTextData) ∧
    serializeNode (Node.text "a&b") false = .ok "a&amp;b" ∧
    serializeNode (Node.text "a&amp;b") false = .ok "a&amp;amp;b" := by
  refine ⟨?_, ?_, rfl, rfl⟩
  · intro requireWellFormed h
    cases requireWellFormed with
    | false => simp [serializeNode, serializeText, escapeTextData_eq_spec]
    | true => simp [serializeNode, serializeText, h rfl, escapeTextData_eq_spec]
  · intro h
    simp [serializeNode, serializeText, h]

/-- Witness for C1 at concrete inputs. -/
theorem text_escaping_single_pass_witness :
    serializeNode (Node.text "a&b") false = .ok (escapeTextSpec "a&b") ∧
    serializeNode (Node.text (String.mk [Char.ofNat 0])) true =
      .error .invalidTextData :=
  ⟨(text_escaping_single_pass "a&b").1 false (fun h => nomatch h),
   (text_escaping_single_pass (String.mk [Char.ofNat 0])).2.1 (by decide)⟩

/-- C2: serializing an attribute value replaces ampersand, quotation mark,
less-than and greater-than signs by their entities and leaves every other
character unchanged; a null value serializes as the empty string and never
fails; and with requireWellFormed set, a non-null value failing the XML
legal-character test makes serialization fail before producing output. -/
theorem attribute_value_escaping (v : String) :
    (∀ requireWellFormed : Bool,
      (requireWellFormed = true → xml_isLegalChar v = true) →
      serializeAttributeValue (some v) requireWellFormed =
        .ok (escapeAttributeValueSpec v)) ∧
    (xml_isLegalChar v = false →
      serializeAttributeValue (some v) true = .error .invalidAttributeValue) ∧
    (∀ requireWellFormed : Bool,
      serializeAttributeValue none requireWellFormed = .ok "") := by
  refine ⟨?_, ?_, fun _ => rfl⟩
  · intro requireWellFormed h
    cases requireWellFormed with
    | false => simp [serializeAttributeValue, escapeAttributeValueData_eq_spec]
    | true => simp [serializeAttributeValue, h rfl, escapeAttributeValueData_eq_spec]
  · intro h
    simp [serializeAttributeValue, h]

/-- Witness for C2 at concrete inputs. -/
theorem attribute_value_escaping_witness :
    serializeAttributeValue (some "a\"<>&b") false =
      .ok (escapeAttributeValueSpec "a\"<>&b") ∧
    serializeAttributeValue (some (String.mk [Char.ofNat 0])) true =
      .error .invalidAttributeValue ∧
    serializeAttributeValue none true = .ok "" :=
  ⟨(attribute_value_escaping "a\"<>&b").1 false (fun h => nomatch h),
   (attribute_value_escaping (String.mk [Char.ofNat 0])).2.1 (by decide),
   (attribute_value_escaping "").2.2 true⟩

/-- C3: a serialized element with zero children is the open angle bracket,
the local name, the serialized attributes and a solidus with closing
bracket, with no end tag; with at least one child it is the start tag, the
concatenated child serializations in tree order, and the end tag; for
either value of requireWellFormed. -/
theorem element_serialization_shape (localName : String) (attrs : List Attr)
    (children : List Node) (requireWellFormed : Bool) (out : String)
    (h : serializeNode (Node.element localName attrs children) requireWellFormed
      = .ok out) :
    ∃ attrStr, serializeAttributes attrs requireWellFormed = .ok attrStr ∧
      (children = [] → out = "<" ++ localName ++ attrStr ++ "/>") ∧
      (children ≠ [] → ∃ body,
        serializeChildren children requireWellFormed = .ok body ∧
        out = "<" ++ localName ++ attrStr ++ ">" ++ body ++
              "</" ++ localName ++ ">") := by
  simp only [serializeNode] at h
  split at h
  · exact absurd h (by simp)
  · split at h
    next e hA => exact absurd h (by simp)
    next attrStr hA =>
      refine ⟨attrStr, hA, ?_, ?_⟩
      · intro hc
        subst hc
        simp only [List.isEmpty_nil, if_true] at h
        exact (Except.ok.inj h).symm
      · intro hc
        have hne : children.isEmpty = false := by
          cases children with
          | nil => exact absurd rfl hc
          | cons c rest => rfl
        rw [hne] at h
        simp only [Bool.false_eq_true, if_false] at h
        split at h
        next e hC => exact absurd h (by simp)
        next body hC => exact ⟨body, hC, (Except.ok.inj h).symm⟩

/-- Witness for C3: an element with no children and one with a text child. -/
theorem element_serialization_shape_witness :
    (∃ attrStr, serializeAttributes [⟨"a", some "1"⟩] false = .ok attrStr ∧
      "<e a=\"1\"/>" = "<" ++ "e" ++ attrStr ++ "/>") ∧
    (∃ attrStr, serializeAttributes [] false = .ok attrStr ∧
      ∃ body, serializeChildren [Node.text "x"] false = .ok body ∧
        "<e>x</e>" = "<" ++ "e" ++ attrStr ++ ">" ++ body ++ "</" ++ "e" ++ ">") := by
  constructor
  · obtain ⟨attrStr, h1, h2, _⟩ := element_serialization_shape "e"
      [⟨"a", some "1"⟩] [] false "<e a=\"1\"/>" rfl
    exact ⟨attrStr, h1, h2 rfl⟩
  · obtain ⟨attrStr, h1, _, h3⟩ := element_serialization_shape "e"
      [] [Node.text "x"] false "<e>x</e>" rfl
    exact ⟨attrStr, h1, h3 (by simp)⟩

/-- C5: serializeToString runs the internal algorithm with well-formedness
checking disabled and collapses any internal failure (in particular an
unknown node category) to the single invalid-state error kind. -/
theorem serializeToString_wraps_internal :
    (∀ root : Node, serializeToString root = xmlSerialization root false) ∧
    (∀ (root : Node) (e : SerializeError),
      serializeNode root false = .error e →
      serializeToString root = .error .invalidStateError) ∧
    (∀ (root : Node) (s : String),
      serializeNode root false = .ok s → serializeToString root = .ok s) ∧
    serializeToString Node.other = .error .invalidStateError := by
  refine ⟨fun _ => rfl, ?_, ?_, rfl⟩
  · intro root e h
    simp [serializeToString, xmlSerialization, h]
  · intro root s h
    simp [serializeToString, xmlSerialization, h]

/-- Witness for C5 at concrete inputs. -/
theorem serializeToString_wraps_internal_witness :
    serializeToString Node.other = .error .invalidStateError ∧
    serializeToString (Node.text "hi") = .ok "hi" :=
  ⟨serializeToString_wraps_internal.2.1 Node.other .unknownNodeType rfl,
   serializeToString_wraps_internal.2.2.1 (Node.text "hi") "hi" rfl⟩

/-! ## Gating of the well-formedness checks (infrastructure for C4) -/

mutual

/-- Whether a node tree contains no node of an unhandled category. -/
def noUnknown : Node → Bool
  | .element _ _ cs => noUnknownList cs
  | .document cs => noUnknownList cs
  | .documentFragment cs => noUnknownList cs
  | .other => false
  | _ => true

/-- List form of noUnknown. -/
def noUnknownList : List Node → Bool
  | [] => true
  | c :: cs => noUnknown c && noUnknownList cs

end

theorem serializeAttributeValue_false_ok (v : Option String) :
    ∃ s, serializeAttributeValue v false = .ok s := by
  cases v <;> simp [serializeAttributeValue]

theorem serializeAttributesAux_false_ok (attrs : List Attr) (seen : List String)
    (acc : String) : ∃ s, serializeAttributesAux false attrs seen acc = .ok s := by
  induction attrs generalizing seen acc with
  | nil => exact ⟨acc, rfl⟩
  | cons a rest ih =>
    cases hv : a.value <;>
      simp [serializeAttributesAux, serializeAttributeValue, hv] <;>
      exact ih _ _

mutual

theorem serializeNode_false_ok (n : Node) (h : noUnknown n = true) :
    ∃ s, serializeNode n false = .ok s :=
  match n, h with
  | .element ln attrs cs, h => by
    obtain ⟨attrStr, hA⟩ := serializeAttributesAux_false_ok attrs [] ""
    have hcs : noUnknownList cs = true := by simpa [noUnknown] using h
    obtain ⟨body, hB⟩ := serializeChildren_false_ok cs hcs
    simp only [serializeNode, Bool.false_and, Bool.false_eq_true, if_false,
      serializeAttributes, hA]
    cases hc : cs.isEmpty
    · simp [hc, hB]
    · simp [hc]
  | .document cs, h => by
    have hcs : noUnknownList cs = true := by simpa [noUnknown] using h
    obtain ⟨body, hB⟩ := serializeChildren_false_ok cs hcs
    simp [serializeNode, hB]
  | .comment d, _ =>
    ⟨"<!--" ++ d ++ "-->", by simp [serializeNode, serializeComment]⟩
  | .text d, _ => ⟨escapeTextData d, by simp [serializeNode, serializeText]⟩
  | .documentFragment cs, h => by
    have hcs : noUnknownList cs = true := by simpa [noUnknown] using h
    obtain ⟨body, hB⟩ := serializeChildren_false_ok cs hcs
    simp [serializeNode, hB]
  | .documentType nm p sid, _ => by
    simp only [serializeNode, serializeDocumentType, Bool.false_and,
      Bool.false_eq_true, if_false]
    split
    · exact ⟨_, rfl⟩
    · split
      · exact ⟨_, rfl⟩
      · split
        · exact ⟨_, rfl⟩
        · exact ⟨_, rfl⟩
  | .processingInstruction t d, _ =>
    ⟨"<?" ++ t ++ " " ++ d ++ "?>",
      by simp [serializeNode, serializeProcessingInstruction]⟩
  | .cdataSection d, _ =>
    ⟨"<![CDATA[" ++ d ++ "]]>", by simp [serializeNode, serializeCData]⟩
  | .other, h => by simp [noUnknown] at h

theorem serializeChildren_false_ok (l : List Node) (h : noUnknownList l = true) :
    ∃ s, serializeChildren l false = .ok s :=
  match l, h with
  | [], _ => ⟨"", rfl⟩
  | c :: rest, h => by
    have h1 : noUnknown c = true := by
      simp [noUnknownList, Bool.and_eq_true] at h
      exact h.1
    have h2 : noUnknownList rest = true := by
      simp [noUnknownList, Bool.and_eq_true] at h
      exact h.2
    obtain ⟨s1, hs1⟩ := serializeNode_false_ok c h1
    obtain ⟨s2, hs2⟩ := serializeChildren_false_ok rest h2
    exact ⟨s1 ++ s2, by simp [serializeChildren, hs1, hs2]⟩

end

theorem serializeAttributeValue_true_to_false (v : Option String) (s : String)
    (h : serializeAttributeValue v true = .ok s) :
    serializeAttributeValue v false = .ok s := by
  cases v with
  | none => exact h
  | some w =>
    simp only [serializeAttributeValue] at h ⊢
    split at h
    · exact absurd h (by simp)
    · simpa using h

theorem serializeAttributesAux_true_to_false (attrs : List Attr)
    (seen seen2 : List String) (acc s : String)
    (h : serializeAttributesAux true attrs seen acc = .ok s) :
    serializeAttributesAux false attrs seen2 acc = .ok s := by
  induction attrs generalizing seen seen2 acc with
  | nil => exact h
  | cons a rest ih =>
    simp only [serializeAttributesAux] at h ⊢
    split at h
    · exact absurd h (by simp)
    · split at h
      · exact absurd h (by simp)
      · split at h
        next e hv => exact absurd h (by simp)
        next v hv =>
          have hv2 : serializeAttributeValue a.value false = .ok v :=
            serializeAttributeValue_true_to_false a.value v hv
          rw [hv2]
          simp only [Bool.false_and, Bool.false_eq_true, if_false]
          exact ih _ seen2 _ h

theorem serializeComment_true_to_false (d s : String)
    (h : serializeComment d true = .ok s) : serializeComment d false = .ok s := by
  simp only [serializeComment] at h ⊢
  split at h
  · exact absurd h (by simp)
  · simpa using h

theorem serializeText_true_to_false (d s : String)
    (h : serializeText d true = .ok s) : serializeText d false = .ok s := by
  simp only [serializeText] at h ⊢
  split at h
  · exact absurd h (by simp)
  · simpa using h

theorem serializeDocumentType_true_to_false (nm p sid s : String)
    (h : serializeDocumentType nm p sid true = .ok s) :
    serializeDocumentType nm p sid false = .ok s := by
  simp only [serializeDocumentType] at h ⊢
  split at h
  · exact absurd h (by simp)
  · split at h
    · exact absurd h (by simp)
    · simpa using h

theorem serializePI_true_to_false (t d s : String)
    (h : serializeProcessingInstruction t d true = .ok s) :
    serializeProcessingInstruction t d false = .ok s := by
  simp only [serializeProcessingInstruction] at h ⊢
  split at h
  · exact absurd h (by simp)
  · split at h
    · exact absurd h (by simp)
    · simpa using h

theorem serializeCData_true_to_false (d s : String)
    (h : serializeCData d true = .ok s) : serializeCData d false = .ok s := by
  simp only [serializeCData] at h ⊢
  split at h
  · exact absurd h (by simp)
  · simpa using h

mutual

theorem serializeNode_true_to_false (n : Node) (s : String)
    (h : serializeNode n true = .ok s) : serializeNode n false = .ok s :=
  match n, h with
  | .element ln attrs cs, h => by
    simp only [serializeNode, serializeAttributes] at h ⊢
    split at h
    · exact absurd h (by simp)
    · split at h
      next e hA => exact absurd h (by simp)
      next attrStr hA =>
        rw [serializeAttributesAux_true_to_false attrs [] [] "" attrStr hA]
        simp only [Bool.false_and, Bool.false_eq_true, if_false]
        cases hc : cs.isEmpty with
        | true => rw [hc] at h; simpa using h
        | false =>
          rw [hc] at h
          simp only [Bool.false_eq_true, if_false] at h ⊢
          split at h
          next e hC => exact absurd h (by simp)
          next body hC =>
            rw [serializeChildren_true_to_false cs body hC]
            exact h
  | .document cs, h => by
    simp only [serializeNode] at h ⊢
    split at h
    · exact absurd h (by simp)
    · simp only [Bool.false_and, Bool.false_eq_true, if_false]
      exact serializeChildren_true_to_false cs s h
  | .comment d, h => serializeComment_true_to_false d s h
  | .text d, h => serializeText_true_to_false d s h
  | .documentFragment cs, h => serializeChildren_true_to_false cs s h
  | .documentType nm p sid, h => serializeDocumentType_true_to_false nm p sid s h
  | .processingInstruction t d, h => serializePI_true_to_false t d s h
  | .cdataSection d, h => serializeCData_true_to_false d s h
  | .other, h => absurd h (by simp [serializeNode])

theorem serializeChildren_true_to_false (l : List Node) (s : String)
    (h : serializeChildren l true = .ok s) : serializeChildren l false = .ok s :=
  match l, h with
  | [], h => h
  | c :: rest, h => by
    simp only [serializeChildren] at h ⊢
    split at h
    next e hc => exact absurd h (by simp)
    next s1 hc =>
      split at h
      next e hr => exact absurd h (by simp)
      next s2 hr =>
        rw [serializeNode_true_to_false c s1 hc,
            serializeChildren_true_to_false rest s2 hr]
        exact h

end

/-- C4: every conformance check is gated on requireWellFormed: any tree
without unknown-category nodes serializes successfully with the flag off,
any output obtainable with the flag on is also produced with the flag off,
and for each enumerated violation (illegal character in text, comment, PI
or attribute data, a double hyphen in a comment, duplicate attribute
names, invalid element or attribute names, a missing document element) the
flag-on run fails while the flag-off run succeeds with the offending raw
data emitted unescaped except for the entity replacements. -/
theorem wellformed_flag_gates_checks :
    (∀ n : Node, noUnknown n = true → ∃ s, serializeNode n false = .ok s) ∧
    (∀ (n : Node) (s : String),
      serializeNode n true = .ok s → serializeNode n false = .ok s) ∧
    (serializeNode (Node.text (String.mk [Char.ofNat 0])) true
        = .error .invalidTextData ∧
      serializeNode (Node.text (String.mk [Char.ofNat 0])) false
        = .ok (String.mk [Char.ofNat 0])) ∧
    (serializeNode (Node.comment "a--b") true = .error .invalidCommentData ∧
      serializeNode (Node.comment "a--b") false = .ok "<!--a--b-->") ∧
    (serializeNode (Node.processingInstruction "t" "a?>b") true
        = .error .invalidPIData ∧
      serializeNode (Node.processingInstruction "t" "a?>b") false
        = .ok "<?t a?>b?>") ∧
    (serializeNode (Node.element "e" [⟨"v", some (String.mk [Char.ofNat 0])⟩] []) true
        = .error .invalidAttributeValue ∧
      serializeNode (Node.element "e" [⟨"v", some (String.mk [Char.ofNat 0])⟩] []) false
        = .ok ("<e v=\"" ++ String.mk [Char.ofNat 0] ++ "\"/>")) ∧
    (serializeNode (Node.element "e" [⟨"a", some "1"⟩, ⟨"a", some "2"⟩] []) true
        = .error .duplicateAttribute ∧
      serializeNode (Node.element "e" [⟨"a", some "1"⟩, ⟨"a", some "2"⟩] []) false
        = .ok "<e a=\"1\" a=\"2\"/>") ∧
    (serializeNode (Node.element "1bad" [] []) true = .error .invalidElementName ∧
      serializeNode (Node.element "1bad" [] []) false = .ok "<1bad/>") ∧
    (serializeNode (Node.element "e" [⟨"x y", some "1"⟩] []) true
        = .error .invalidAttributeName ∧
      serializeNode (Node.element "e" [⟨"x y", some "1"⟩] []) false
        = .ok "<e x y=\"1\"/>") ∧
    (serializeNode (Node.document [Node.comment "c"]) true
        = .error .missingDocumentElement ∧
      serializeNode (Node.document [Node.comment "c"]) false = .ok "<!--c-->") := by
  refine ⟨serializeNode_false_ok, serializeNode_true_to_false,
    ⟨?_, ?_⟩, ⟨?_, ?_⟩, ⟨?_, ?_⟩, ⟨?_, ?_⟩, ⟨?_, ?_⟩, ⟨?_, ?_⟩, ⟨?_, ?_⟩, ⟨?_, ?_⟩⟩
  all_goals rfl

/-- Witness for C4 at concrete inputs. -/
theorem wellformed_flag_gates_checks_witness :
    (∃ s, serializeNode (Node.comment "a--b") false = .ok s) ∧
    serializeNode (Node.comment "ok") false = .ok "<!--ok-->" :=
  ⟨wellformed_flag_gates_checks.1 (Node.comment "a--b") rfl,
   wellformed_flag_gates_checks.2.1 (Node.comment "ok") "<!--ok-->" rfl⟩

/-! ## Duplicate attribute detection (infrastructure for C6) -/

/-- An attribute passing all per-attribute well-formedness checks other
than the duplicate check. -/
def attrOk (b : Attr) : Bool :=
  !(strIncludes b.localName ":") && xml_isName b.localName &&
    (match b.value with
     | some v => xml_isLegalChar v
     | none => true)

theorem serializeAttributesAux_ok_nodup (attrs : List Attr)
    (seen : List String) (acc s : String)
    (h : serializeAttributesAux true attrs seen acc = .ok s) :
    (attrs.map Attr.localName).Nodup ∧
    ∀ nm ∈ attrs.map Attr.localName, nm ∉ seen := by
  induction attrs generalizing seen acc with
  | nil => exact ⟨List.nodup_nil, by simp⟩
  | cons a rest ih =>
    simp only [serializeAttributesAux] at h
    split at h
    · exact absurd h (by simp)
    next hdup =>
      split at h
      · exact absurd h (by simp)
      · split at h
        next e hv => exact absurd h (by simp)
        next v hv =>
          simp only [Bool.true_and, Bool.and_eq_true] at hdup
          have hnotseen : a.localName ∉ seen := by
            intro hmem
            exact hdup (by simpa using hmem)
          obtain ⟨hnd, hrest⟩ := ih (a.localName :: seen) _ h
          refine ⟨?_, ?_⟩
          · refine List.nodup_cons.mpr ⟨?_, hnd⟩
            intro hmem
            exact (hrest a.localName hmem) (List.mem_cons_self _ _)
          · intro nm hnm
            rcases List.mem_cons.mp hnm with hh | hh
            · subst hh; exact hnotseen
            · intro hs
              exact (hrest nm hh) (List.mem_cons_of_mem _ hs)

theorem serializeAttributesAux_dup_error (pre : List Attr) (a : Attr)
    (post : List Attr) (seen : List String) (acc : String)
    (hok : ∀ b ∈ pre, attrOk b = true)
    (hnd : (pre.map Attr.localName ++ seen).Nodup)
    (hmem : a.localName ∈ pre.map Attr.localName ∨ a.localName ∈ seen) :
    serializeAttributesAux true (pre ++ a :: post) seen acc =
      .error .duplicateAttribute := by
  induction pre generalizing seen acc with
  | nil =>
    have hs : a.localName ∈ seen := by
      rcases hmem with hh | hh
      · simp at hh
      · exact hh
    simp only [List.nil_append, serializeAttributesAux]
    rw [if_pos]
    simp [hs]
  | cons b pre' ih =>
    have hbok : attrOk b = true := hok b (List.mem_cons_self _ _)
    simp only [attrOk, Bool.and_eq_true, Bool.not_eq_true'] at hbok
    have hnd' : (b.localName :: (pre'.map Attr.localName ++ seen)).Nodup := by
      simp only [List.map_cons, List.cons_append] at hnd
      exact hnd
    have hbseen : b.localName ∉ seen := fun hs =>
      (List.nodup_cons.mp hnd').1 (List.mem_append.mpr (Or.inr hs))
    simp only [List.cons_append, serializeAttributesAux]
    rw [if_neg (by simp [hbseen]), if_neg (by simp [hbok.1.1, hbok.1.2])]
    have hval : ∃ v, serializeAttributeValue b.value true = .ok v := by
      cases hb : b.value with
      | none => exact ⟨"", rfl⟩
      | some w =>
        have hw : xml_isLegalChar w = true := by
          have h2 := hbok.2
          rw [hb] at h2
          simpa using h2
        exact ⟨escapeAttributeValueData w,
          by simp [serializeAttributeValue, hw]⟩
    obtain ⟨v, hv⟩ := hval
    rw [hv]
    simp only [if_pos rfl]
    refine ih _ _ (fun c hc => hok c (List.mem_cons_of_mem _ hc)) ?_ ?_
    · have hperm : (pre'.map Attr.localName ++ (b.localName :: seen)).Perm
          (b.localName :: (pre'.map Attr.localName ++ seen)) :=
        List.perm_middle
      exact hperm.nodup_iff.mpr hnd'
    · rcases hmem with hh | hh
      · rw [List.map_cons] at hh
        rcases List.mem_cons.mp hh with h1 | h1
        · exact Or.inr (h1 ▸ List.mem_cons_self _ _)
        · exact Or.inl h1
      · exact Or.inr (List.mem_cons_of_mem _ hh)

/-- The empty string is empty. -/
theorem empty_isEmpty : ("" : String).isEmpty = true := rfl

/-- Whether a string is non-empty, as an equation on isEmpty. -/
theorem string_isEmpty_false (s : String) (h : ¬ s = "") : s.isEmpty = false := by
  cases he : s.isEmpty with
  | false => rfl
  | true => exact absurd (by simpa [String.isEmpty_iff] using he) h

/-- C6: with requireWellFormed set, two attributes sharing a local name make
serialization fail; the collision check is keyed on the local name only and
fires in attribute-list order upon reaching the second attribute with an
already-seen local name (regardless of that attribute's own validity or of
later attributes); with the flag off, duplicates serialize without error. -/
theorem duplicate_attributes_rejected :
    (∀ attrs : List Attr, ¬ (attrs.map Attr.localName).Nodup →
      ∃ e, serializeAttributes attrs true = .error e) ∧
    (∀ (pre : List Attr) (a : Attr) (post : List Attr),
      (∀ b ∈ pre, attrOk b = true) →
      (pre.map Attr.localName).Nodup →
      a.localName ∈ pre.map Attr.localName →
      serializeAttributes (pre ++ a :: post) true = .error .duplicateAttribute) ∧
    (∀ attrs : List Attr, ∃ s, serializeAttributes attrs false = .ok s) ∧
    serializeNode (Node.element "e" [⟨"a", some "1"⟩, ⟨"a", some "2"⟩] []) true
      = .error .duplicateAttribute ∧
    serializeNode (Node.element "e" [⟨"a", some "1"⟩, ⟨"a", some "2"⟩] []) false
      = .ok "<e a=\"1\" a=\"2\"/>" := by
  refine ⟨?_, ?_, ?_, rfl, rfl⟩
  · intro attrs hnd
    cases hres : serializeAttributes attrs true with
    | error e => exact ⟨e, rfl⟩
    | ok s =>
      exact absurd (serializeAttributesAux_ok_nodup attrs [] "" s hres).1 hnd
  · intro pre a post hok hnd hmem
    exact serializeAttributesAux_dup_error pre a post [] "" hok
      (by simpa using hnd) (Or.inl hmem)
  · intro attrs
    exact serializeAttributesAux_false_ok attrs [] ""

/-- Witness for C6 at concrete inputs. -/
theorem duplicate_attributes_rejected_witness :
    serializeAttributes ([⟨"a", some "1"⟩] ++ ⟨"a", some "2"⟩ :: []) true
      = .error .duplicateAttribute ∧
    (∃ e, serializeAttributes [⟨"b", some "1"⟩, ⟨"b", some "2"⟩] true = .error e) :=
  ⟨duplicate_attributes_rejected.2.1 [⟨"a", some "1"⟩] ⟨"a", some "2"⟩ []
      (by decide) (by decide) (by decide),
   duplicate_attributes_rejected.1 [⟨"b", some "1"⟩, ⟨"b", some "2"⟩] (by decide)⟩

/-- C7: with requireWellFormed set, a Document with no document element
fails to serialize; with the flag off, serialization is exactly the
concatenation of the serializations of the document's children in tree
order with no wrapping markup, and succeeds. -/
theorem document_serialization (cs : List Node) :
    (documentElementOf cs = none →
      serializeNode (Node.document cs) true = .error .missingDocumentElement) ∧
    (serializeNode (Node.document cs) false = serializeChildren cs false) ∧
    (noUnknownList cs = true →
      ∃ s, serializeNode (Node.document cs) false = .ok s) ∧
    serializeNode (Node.document [Node.comment "c",
      Node.processingInstruction "t" "d", Node.documentType "r" "" ""]) false
      = .ok "<!--c--><?t d?><!DOCTYPE r>" := by
  refine ⟨?_, ?_, ?_, rfl⟩
  · intro h
    simp [serializeNode, h]
  · simp [serializeNode]
  · intro h
    obtain ⟨s, hs⟩ := serializeChildren_false_ok cs h
    exact ⟨s, by simp [serializeNode, hs]⟩

/-- Witness for C7 at concrete inputs. -/
theorem document_serialization_witness :
    serializeNode (Node.document [Node.comment "c"]) true
      = .error .missingDocumentElement ∧
    (∃ s, serializeNode (Node.document [Node.comment "c"]) false = .ok s) :=
  ⟨(document_serialization [Node.comment "c"]).1 rfl,
   (document_serialization [Node.comment "c"]).2.2.1 rfl⟩

/-- C8: a DocumentType node serializes to one of four forms selected by
which of publicId and systemId are non-empty: both give the PUBLIC form
with both identifiers, publicId alone gives the PUBLIC form with the
systemId omitted, systemId alone gives the SYSTEM form, neither gives the
bare form. -/
theorem doctype_output_selection (name p sid : String) :
    (∀ (requireWellFormed : Bool) (out : String),
      serializeNode (Node.documentType name p sid) requireWellFormed = .ok out →
      ((p ≠ "" ∧ sid ≠ "") →
        out = "<!DOCTYPE " ++ name ++ " PUBLIC \"" ++ p ++ "\" \"" ++ sid ++ "\">") ∧
      ((p ≠ "" ∧ sid = "") →
        out = "<!DOCTYPE " ++ name ++ " PUBLIC \"" ++ p ++ "\">") ∧
      ((p = "" ∧ sid ≠ "") →
        out = "<!DOCTYPE " ++ name ++ " SYSTEM \"" ++ sid ++ "\">") ∧
      ((p = "" ∧ sid = "") → out = "<!DOCTYPE " ++ name ++ ">")) ∧
    (∃ out, serializeNode (Node.documentType name p sid) false = .ok out) := by
  constructor
  · intro requireWellFormed out h
    simp only [serializeNode, serializeDocumentType] at h
    split at h
    · exact absurd h (by simp)
    · split at h
      · exact absurd h (by simp)
      · by_cases hp : p = "" <;> by_cases hs : sid = ""
        · subst hp; subst hs
          simp only [empty_isEmpty, Bool.not_true, Bool.false_and,
            Bool.and_self, Bool.false_eq_true, if_false] at h
          exact ⟨fun hx => absurd rfl hx.1, fun hx => absurd rfl hx.1,
            fun hx => absurd rfl hx.2, fun _ => (Except.ok.inj h).symm⟩
        · subst hp
          simp only [empty_isEmpty, string_isEmpty_false sid hs,
            Bool.not_true, Bool.not_false, Bool.false_and, Bool.true_and,
            Bool.false_eq_true, Bool.true_eq_false, if_false, if_true] at h
          exact ⟨fun hx => absurd rfl hx.1, fun hx => absurd rfl hx.1,
            fun _ => (Except.ok.inj h).symm, fun hx => absurd hx.2 hs⟩
        · subst hs
          simp only [empty_isEmpty, string_isEmpty_false p hp,
            Bool.not_true, Bool.not_false, Bool.and_false, Bool.true_and,
            Bool.false_eq_true, Bool.true_eq_false, if_false, if_true] at h
          exact ⟨fun hx => absurd rfl hx.2, fun _ => (Except.ok.inj h).symm,
            fun hx => absurd hx.1 hp, fun hx => absurd hx.1 hp⟩
        · simp only [string_isEmpty_false p hp, string_isEmpty_false sid hs,
            Bool.not_false, Bool.and_self, if_true] at h
          exact ⟨fun _ => (Except.ok.inj h).symm, fun hx => absurd hx.2 hs,
            fun hx => absurd hx.1 hp, fun hx => absurd hx.1 hp⟩
  · exact serializeNode_false_ok (Node.documentType name p sid) rfl

/-- Witness for C8 at concrete inputs. -/
theorem doctype_output_selection_witness :
    "<!DOCTYPE r PUBLIC \"p\" \"s\">" =
      "<!DOCTYPE " ++ "r" ++ " PUBLIC \"" ++ "p" ++ "\" \"" ++ "s" ++ "\">" ∧
    "<!DOCTYPE r>" = "<!DOCTYPE " ++ "r" ++ ">" :=
  ⟨((doctype_output_selection "r" "p" "s").1 false
      "<!DOCTYPE r PUBLIC \"p\" \"s\">" rfl).1 (by decide),
   ((doctype_output_selection "r" "" "").1 false
      "<!DOCTYPE r>" rfl).2.2.2 (by decide)⟩

/-- C10: with requireWellFormed set, a CDATASection fails to serialize
exactly when its data contains the closing delimiter; characters illegal
under the XML legal-character test do not cause a failure, and successful
output is the CDATA open delimiter, the data verbatim and unescaped, and
the closing delimiter. -/
theorem cdata_serialization (data : String) :
    ((∃ e, serializeNode (Node.cdataSection data) true = .error e) ↔
      strIncludes data "]]>" = true) ∧
    (∀ requireWellFormed : Bool, strIncludes data "]]>" = false →
      serializeNode (Node.cdataSection data) requireWellFormed =
        .ok ("<![CDATA[" ++ data ++ "]]>")) ∧
    serializeNode (Node.cdataSection data) false =
      .ok ("<![CDATA[" ++ data ++ "]]>") ∧
    serializeNode (Node.cdataSection (String.mk [Char.ofNat 0])) true =
      .ok ("<![CDATA[" ++ String.mk [Char.ofNat 0] ++ "]]>") := by
  refine ⟨⟨?_, ?_⟩, ?_, ?_, rfl⟩
  · rintro ⟨e, he⟩
    by_contra hno
    have hfalse : strIncludes data "]]>" = false := by
      cases hin : strIncludes data "]]>" with
      | false => rfl
      | true => exact absurd hin hno
    simp [serializeNode, serializeCData, hfalse] at he
  · intro hin
    exact ⟨.invalidCDataData, by simp [serializeNode, serializeCData, hin]⟩
  · intro requireWellFormed hin
    cases requireWellFormed <;> simp [serializeNode, serializeCData, hin]
  · simp [serializeNode, serializeCData]

/-- Witness for C10 at a concrete input. -/
theorem cdata_serialization_witness :
    serializeNode (Node.cdataSection "abc") true =
      .ok ("<![CDATA[" ++ "abc" ++ "]]>") :=
  (cdata_serialization "abc").2.1 true (by decide)

/-- C9: on the input with an unterminated closing tag, the first call to
the lexer yields an Element token named root with no attributes and not
self-closing, the second yields a Text token with the data hello, and the
third raises a lexing error. -/
theorem lexer_unterminated_closing_tag :
    ∃ rest1, nextToken ("<root>hello</root".data) =
        .ok (Token.element "root" [] false, rest1) ∧
      ∃ rest2, nextToken rest1 = .ok (Token.text "hello", rest2) ∧
        ∃ e, nextToken rest2 = .error e := by
  refine ⟨"hello</root".data, ?_, "</root".data, ?_,
    LexError.lexError "unterminated closing tag", ?_⟩ <;> rfl
